import Mathlib

/-!
Verification of the `pitch_calc` Step module (`src/step.rs`).

The raw scalar (`calc::Step`, a Rust `f32`) is modelled by `F32`: a NaN,
a signed infinity, or an exact rational value.  Rounding of finite float
arithmetic is not modelled (finite arithmetic is exact rational
arithmetic); the integer↔float conversions, whose rounding the integer
round-trip claims depend on, model IEEE-754 round-to-nearest-ties-to-even
explicitly (`roundF32Nat`).  Signed zero is collapsed to a single zero.

The external collaborators imported by `step.rs` from its parent module
(`hz_from_step`, `mel_from_step`, `perc_from_step`, `scaled_perc_from_step`,
`letter_octave_from_step`, `DEFAULT_SCALE_WEIGHT`) are not part of the
source under verification; they are passed as an explicit `Externals`
record, mirroring the `use super::...` imports.
-/

/-- Model of the Rust `f32` scalar: NaN, a signed infinity
(`inf true` = +∞, `inf false` = −∞), or an exact finite value. -/
inductive F32 where
  | nan : F32
  | inf : Bool → F32
  | val : ℚ → F32
deriving DecidableEq

/-- Whether the scalar is NaN. -/
def F32.isNaN : F32 → Bool
  | .nan => true
  | _ => false

/-- Three-way comparison of rationals (the total order on finite floats). -/
def qcmp (a b : ℚ) : Ordering :=
  if a < b then .lt else if b < a then .gt else .eq

/-- IEEE-754 `partial_cmp`: `none` iff an operand is NaN, otherwise the
numeric order with −∞ below every finite value and +∞ above. -/
def F32.partialCmp : F32 → F32 → Option Ordering
  | .nan, _ => none
  | _, .nan => none
  | .inf true, .inf true => some .eq
  | .inf true, _ => some .gt
  | .inf false, .inf false => some .eq
  | .inf false, _ => some .lt
  | .val _, .inf true => some .lt
  | .val _, .inf false => some .gt
  | .val a, .val b => some (qcmp a b)

/-- IEEE-754 `==` on scalars: false on NaN operands, numeric equality
otherwise. -/
def F32.feq : F32 → F32 → Bool
  | .nan, _ => false
  | _, .nan => false
  | .inf a, .inf b => a == b
  | .inf _, .val _ => false
  | .val _, .inf _ => false
  | .val a, .val b => decide (a = b)

/-- The total comparison of two non-NaN scalars (the ordering that
`partial_cmp` wraps in `some`); its value on NaN operands is irrelevant. -/
def F32.cmpFin : F32 → F32 → Ordering
  | .val a, .val b => qcmp a b
  | .inf a, .inf b => if a == b then .eq else if a then .gt else .lt
  | .inf a, _ => if a then .gt else .lt
  | _, .inf b => if b then .lt else .gt
  | _, _ => .eq

/-- IEEE-754 negation. -/
def F32.neg : F32 → F32
  | .nan => .nan
  | .inf b => .inf (!b)
  | .val a => .val (-a)

/-- IEEE-754 addition (finite part idealised as exact). -/
def F32.add : F32 → F32 → F32
  | .nan, _ => .nan
  | _, .nan => .nan
  | .inf a, .inf b => if a == b then .inf a else .nan
  | .inf a, .val _ => .inf a
  | .val _, .inf b => .inf b
  | .val a, .val b => .val (a + b)

/-- IEEE-754 subtraction (finite part idealised as exact). -/
def F32.sub : F32 → F32 → F32
  | .nan, _ => .nan
  | _, .nan => .nan
  | .inf a, .inf b => if a == b then .nan else .inf a
  | .inf a, .val _ => .inf a
  | .val _, .inf b => .inf (!b)
  | .val a, .val b => .val (a - b)

/-- IEEE-754 multiplication (finite part idealised as exact). -/
def F32.mul : F32 → F32 → F32
  | .nan, _ => .nan
  | _, .nan => .nan
  | .inf a, .inf b => .inf (a == b)
  | .inf a, .val q => if q = 0 then .nan else if 0 < q then .inf a else .inf (!a)
  | .val q, .inf b => if q = 0 then .nan else if 0 < q then .inf b else .inf (!b)
  | .val a, .val b => .val (a * b)

/-- IEEE-754 division: a finite value divided by zero yields an infinity
(0/0 yields NaN); the finite part is idealised as exact. -/
def F32.div : F32 → F32 → F32
  | .nan, _ => .nan
  | _, .nan => .nan
  | .inf _, .inf _ => .nan
  | .inf a, .val q => if 0 ≤ q then .inf a else .inf (!a)
  | .val _, .inf _ => .val 0
  | .val a, .val b =>
      if b = 0 then (if a = 0 then .nan else if 0 < a then .inf true else .inf false)
      else .val (a / b)

/-- Truncation of a rational toward zero (the rounding used by both the
float `%` operator and float-to-integer casts). -/
def ratTrunc (q : ℚ) : ℤ := if 0 ≤ q then ⌊q⌋ else -⌊-q⌋

/-- IEEE-754 remainder as Rust `%` on floats computes it
(`x - trunc(x/y)*y`); the finite part is idealised as exact. -/
def F32.rem : F32 → F32 → F32
  | .nan, _ => .nan
  | _, .nan => .nan
  | .inf _, _ => .nan
  | .val a, .inf _ => .val a
  | .val a, .val b => if b = 0 then .nan else .val (a - (ratTrunc (a / b) : ℚ) * b)

instance : Neg F32 := ⟨F32.neg⟩

instance : Add F32 := ⟨F32.add⟩

instance : Sub F32 := ⟨F32.sub⟩

instance : Mul F32 := ⟨F32.mul⟩

instance : Div F32 := ⟨F32.div⟩

instance : Mod F32 := ⟨F32.rem⟩

/-- `pub struct Step(pub calc::Step);` — the central pitch type wrapping
one raw scalar. -/
structure Step where
  raw : F32
deriving DecidableEq

/-- `Step::step`: return the raw scalar. -/
def Step.step (s : Step) : F32 := s.raw

/-- `impl Add for Step`: `Step(self.step() + rhs.step())`. -/
instance : Add Step := ⟨fun a b => ⟨a.step + b.step⟩⟩

/-- `impl Sub for Step`: `Step(self.step() - rhs.step())`. -/
instance : Sub Step := ⟨fun a b => ⟨a.step - b.step⟩⟩

/-- `impl Mul for Step`: `Step(self.step() * rhs.step())`. -/
instance : Mul Step := ⟨fun a b => ⟨a.step * b.step⟩⟩

/-- `impl Div for Step`: `Step(self.step() / rhs.step())`. -/
instance : Div Step := ⟨fun a b => ⟨a.step / b.step⟩⟩

/-- `impl Rem for Step`: `Step(self.step() % rhs.step())`. -/
instance : Mod Step := ⟨fun a b => ⟨a.step % b.step⟩⟩

/-- `impl Neg for Step`: `Step(-self.step())`. -/
instance : Neg Step := ⟨fun a => ⟨-a.step⟩⟩

/-- `impl PartialOrd for Step`: `self.step().partial_cmp(&other.step())`. -/
def Step.partialCmp (a b : Step) : Option Ordering :=
  F32.partialCmp a.step b.step

/-- `impl Ord for Step`: `self.partial_cmp(other).unwrap()`.  The result
`none` models the `unwrap` panic; `some o` is the normal return. -/
def Step.cmp (a b : Step) : Option Ordering := Step.partialCmp a b

/-- Rust `a < b` on Step (derived from `PartialOrd`). -/
def Step.ltb (a b : Step) : Bool := decide (Step.partialCmp a b = some Ordering.lt)

/-- `impl PartialEq for Step`: `self.step() == other.step()` (float `==`
on the raw scalars). -/
def Step.eqb (a b : Step) : Bool := F32.feq a.step b.step

/-- Rust `a > b` on Step (derived from `PartialOrd`). -/
def Step.gtb (a b : Step) : Bool := decide (Step.partialCmp a b = some Ordering.gt)

/-- Modelled from the spec: the 12-way cyclic musical pitch class
(`Letter`), whose defining enum lives outside `src/step.rs`. -/
inductive Letter where
  | C | Csh | D | Dsh | E | F | Fsh | G | Gsh | A | Ash | B
deriving DecidableEq

/-- Modelled from the spec: newtype wrapper `Hz` carrying a frequency. -/
structure Hz where
  raw : F32
deriving DecidableEq

/-- Modelled from the spec: newtype wrapper `Mel`. -/
structure Mel where
  raw : F32
deriving DecidableEq

/-- Modelled from the spec: newtype wrapper `Perc`. -/
structure Perc where
  raw : F32
deriving DecidableEq

/-- Modelled from the spec: `ScaledPerc(value, weight)` — a percentage
paired with the scale weight used to produce it. -/
structure ScaledPerc where
  perc : F32
  weight : F32
deriving DecidableEq

/-- Modelled from the spec: `LetterOctave(letter, octave)`. -/
structure LetterOctave where
  letter : Letter
  octave : ℤ
deriving DecidableEq

/-- The external collaborators `step.rs` imports from `super`; they are
outside the verified source, so Step's methods take them as a record. -/
structure Externals where
  hz_from_step : F32 → F32
  mel_from_step : F32 → F32
  perc_from_step : F32 → F32
  scaled_perc_from_step : F32 → F32 → F32
  letter_octave_from_step : F32 → Letter × ℤ
  DEFAULT_SCALE_WEIGHT : F32

/-- `Step::hz`: `hz_from_step(step)`. -/
def Step.hz (E : Externals) (s : Step) : F32 := E.hz_from_step s.step

/-- `Step::to_hz`: `Hz(self.hz())`. -/
def Step.to_hz (E : Externals) (s : Step) : Hz := ⟨Step.hz E s⟩

/-- `Step::letter_octave`: `letter_octave_from_step(self.step())`. -/
def Step.letter_octave (E : Externals) (s : Step) : Letter × ℤ :=
  E.letter_octave_from_step s.step

/-- `Step::letter`: first component of `letter_octave`. -/
def Step.letter (E : Externals) (s : Step) : Letter :=
  (Step.letter_octave E s).1

/-- `Step::octave`: second component of `letter_octave`. -/
def Step.octave (E : Externals) (s : Step) : ℤ :=
  (Step.letter_octave E s).2

/-- `Step::to_letter_octave`: `LetterOctave(letter, octave)` from the two
components of one `letter_octave()` call. -/
def Step.to_letter_octave (E : Externals) (s : Step) : LetterOctave :=
  ⟨(Step.letter_octave E s).1, (Step.letter_octave E s).2⟩

/-- `Step::mel`: `mel_from_step(self.step())`. -/
def Step.mel (E : Externals) (s : Step) : F32 := E.mel_from_step s.step

/-- `Step::to_mel`: `Mel(self.mel())`. -/
def Step.to_mel (E : Externals) (s : Step) : Mel := ⟨Step.mel E s⟩

/-- `Step::perc`: `perc_from_step(self.step())`. -/
def Step.perc (E : Externals) (s : Step) : F32 := E.perc_from_step s.step

/-- `Step::to_perc`: `Perc(self.perc())`. -/
def Step.to_perc (E : Externals) (s : Step) : Perc := ⟨Step.perc E s⟩

/-- `Step::scaled_perc_with_weight`: `scaled_perc_from_step(self.step(), weight)`. -/
def Step.scaled_perc_with_weight (E : Externals) (s : Step) (weight : F32) : F32 :=
  E.scaled_perc_from_step s.step weight

/-- `Step::scaled_perc`: `self.scaled_perc_with_weight(DEFAULT_SCALE_WEIGHT)`. -/
def Step.scaled_perc (E : Externals) (s : Step) : F32 :=
  Step.scaled_perc_with_weight E s E.DEFAULT_SCALE_WEIGHT

/-- `Step::to_scaled_perc_with_weight`:
`ScaledPerc(self.scaled_perc_with_weight(weight), weight)`. -/
def Step.to_scaled_perc_with_weight (E : Externals) (s : Step) (weight : F32) : ScaledPerc :=
  ⟨Step.scaled_perc_with_weight E s weight, weight⟩

/-- `Step::to_scaled_perc`: `self.to_scaled_perc_with_weight(DEFAULT_SCALE_WEIGHT)`. -/
def Step.to_scaled_perc (E : Externals) (s : Step) : ScaledPerc :=
  Step.to_scaled_perc_with_weight E s E.DEFAULT_SCALE_WEIGHT

/-- The eight integer kinds `impl_all_from!(u8, u16, u32, u64, i8, i16, i32, i64)`
instantiates the conversion macro at. -/
inductive IntKind where
  | u8 | u16 | u32 | u64 | i8 | i16 | i32 | i64
deriving DecidableEq

/-- Smallest value of the kind (Rust `MIN`). -/
def IntKind.lo : IntKind → ℤ
  | .u8 => 0
  | .u16 => 0
  | .u32 => 0
  | .u64 => 0
  | .i8 => -128
  | .i16 => -32768
  | .i32 => -2147483648
  | .i64 => -9223372036854775808

/-- Largest value of the kind (Rust `MAX`). -/
def IntKind.hi : IntKind → ℤ
  | .u8 => 255
  | .u16 => 65535
  | .u32 => 4294967295
  | .u64 => 18446744073709551615
  | .i8 => 127
  | .i16 => 32767
  | .i32 => 2147483647
  | .i64 => 9223372036854775807

/-- Fuel-driven base-2 logarithm on naturals (`natLog2F 128` is exact for
every value below `2 ^ 128`). -/
def natLog2F : Nat → Nat → Nat
  | 0, _ => 0
  | f + 1, n => if 2 ≤ n then natLog2F f (n / 2) + 1 else 0

/-- IEEE-754 round-to-nearest-ties-to-even of a natural number to an `f32`
value: exact up to `2 ^ 24`; above, the number is rounded to the nearest
multiple of the unit in the last place, ties to the even mantissa. -/
def roundF32Nat (n : Nat) : Nat :=
  if n ≤ 16777216 then n
  else
    let e := natLog2F 128 n - 23
    let u := 2 ^ e
    let q := n / u
    let r := n % u
    if 2 * r < u then q * u
    else if u < 2 * r then (q + 1) * u
    else if q % 2 = 0 then q * u else (q + 1) * u

/-- Sign-symmetric extension of `roundF32Nat` to the integers: the value
an integer-to-`f32` cast (`val as f32`) stores. -/
def roundF32Int (n : ℤ) : ℤ :=
  if 0 ≤ n then (roundF32Nat n.toNat : ℤ) else -(roundF32Nat (-n).toNat : ℤ)

/-- `impl From<$T> for Step`: `Step(val as f32)`.  The stored scalar is
the round-to-nearest `f32` of the integer, identical for every source
kind, so the kind is not a parameter. -/
def Step.fromInt (n : ℤ) : Step := ⟨F32.val (roundF32Int n)⟩

/-- Rust float-to-integer `as` cast into the range `[lo, hi]`: truncation
toward zero, saturating at the bounds, NaN to 0. -/
def F32.toIntSat (lo hi : ℤ) : F32 → ℤ
  | .nan => 0
  | .inf true => hi
  | .inf false => lo
  | .val q => max lo (min hi (ratTrunc q))

/-- `impl Into<$T> for Step`: `self.0 as $T`. -/
def Step.intoInt (k : IntKind) (s : Step) : ℤ :=
  F32.toIntSat k.lo k.hi s.step

/-- Modelled from the spec: a concrete choice of external collaborators
(identity scalar maps, a constant letter table entry, weight 1) used to
instantiate the theorems that hold for every choice of externals. -/
def E0 : Externals :=
  ⟨id, id, id, fun s _ => s, fun _ => (Letter.A, 4), F32.val 1⟩

lemma roundF32Nat_small {n : ℕ} (h : n ≤ 16777216) : roundF32Nat n = n := by
  unfold roundF32Nat
  rw [if_pos h]

lemma roundF32Int_small {n : ℤ} (h1 : -16777216 ≤ n) (h2 : n ≤ 16777216) :
    roundF32Int n = n := by
  unfold roundF32Int
  by_cases h : 0 ≤ n
  · rw [if_pos h, roundF32Nat_small (by omega)]
    omega
  · rw [if_neg h, roundF32Nat_small (by omega)]
    omega

lemma ratTrunc_intCast (n : ℤ) : ratTrunc (n : ℚ) = n := by
  unfold ratTrunc
  by_cases h : (0 : ℚ) ≤ (n : ℚ)
  · rw [if_pos h, Int.floor_intCast]
  · rw [if_neg h, show -((n : ℤ) : ℚ) = (((-n : ℤ) : ℤ) : ℚ) by push_cast; ring,
      Int.floor_intCast]
    omega

lemma IntKind.lo_nonpos (k : IntKind) : k.lo ≤ 0 := by
  cases k <;> decide

lemma IntKind.hi_nonneg (k : IntKind) : 0 ≤ k.hi := by
  cases k <;> decide

/-- C1 counterexample: 16777217 lies within the u32 range, yet
`Step::from(16777217u32)` stores the nearest `f32`, 16777216.0, and
converting back via `Into::<u32>` yields 16777216, not 16777217.  So the
round trip fails for a u32 value inside its representable range. -/
theorem c1_counterexample :
    (IntKind.lo IntKind.u32 ≤ 16777217 ∧ (16777217 : ℤ) ≤ IntKind.hi IntKind.u32)
    ∧ Step.intoInt IntKind.u32 (Step.fromInt 16777217) = 16777216
    ∧ Step.intoInt IntKind.u32 (Step.fromInt 16777217) ≠ 16777217 := by
  have hr : roundF32Int 16777217 = 16777216 := by decide
  have hv : Step.intoInt IntKind.u32 (Step.fromInt 16777217) = 16777216 := by
    show max (IntKind.lo IntKind.u32) (min (IntKind.hi IntKind.u32)
      (ratTrunc ((roundF32Int 16777217 : ℤ) : ℚ))) = 16777216
    rw [hr, ratTrunc_intCast]
    decide
  exact ⟨⟨by decide, by decide⟩, hv, by rw [hv]; decide⟩

/-- C1 (amended): for every supported integer kind and every n within the
kind's representable range whose magnitude is at most 2^24 = 16777216 —
in particular for every value of the 8- and 16-bit kinds — the conversion
into a Step and back yields n again. -/
theorem c1_roundtrip_small (k : IntKind) (n : ℤ)
    (hlo : k.lo ≤ n) (hhi : n ≤ k.hi)
    (h1 : -16777216 ≤ n) (h2 : n ≤ 16777216) :
    Step.intoInt k (Step.fromInt n) = n := by
  have hr : roundF32Int n = n := roundF32Int_small h1 h2
  show max k.lo (min k.hi (ratTrunc ((roundF32Int n : ℤ) : ℚ))) = n
  rw [hr, ratTrunc_intCast]
  omega

/-- Witness for the amended C1: the MIDI note 60 round-trips through u8. -/
theorem c1_roundtrip_small_witness :
    Step.intoInt IntKind.u8 (Step.fromInt 60) = 60 :=
  c1_roundtrip_small IntKind.u8 60 (by decide) (by decide) (by decide) (by decide)

/-- C7: the Step-to-integer conversion is total with a pinned result always
inside the target range; whenever the truncation of a finite scalar lies in
the target range the conversion returns exactly that truncation; and the
truncation rounds toward zero (its magnitude is the floor of the scalar's
magnitude and its sign follows the scalar's sign). -/
theorem c7_into_truncates (k : IntKind) (q : ℚ) (s : Step) :
    (k.lo ≤ ratTrunc q → ratTrunc q ≤ k.hi →
      Step.intoInt k ⟨F32.val q⟩ = ratTrunc q)
    ∧ |(ratTrunc q : ℚ)| ≤ |q|
    ∧ |q| < |(ratTrunc q : ℚ)| + 1
    ∧ (0 ≤ q → 0 ≤ ratTrunc q)
    ∧ (q ≤ 0 → ratTrunc q ≤ 0)
    ∧ k.lo ≤ Step.intoInt k s ∧ Step.intoInt k s ≤ k.hi := by
  have hlo := k.lo_nonpos
  have hhi := k.hi_nonneg
  have habs : |(ratTrunc q : ℚ)| ≤ |q| ∧ |q| < |(ratTrunc q : ℚ)| + 1 := by
    unfold ratTrunc
    by_cases h : 0 ≤ q
    · rw [if_pos h, abs_of_nonneg h,
        abs_of_nonneg (by exact_mod_cast Int.floor_nonneg.mpr h : (0:ℚ) ≤ (⌊q⌋ : ℚ))]
      exact ⟨Int.floor_le q, Int.lt_floor_add_one q⟩
    · have hq : q < 0 := lt_of_not_ge h
      rw [if_neg h, abs_of_neg hq]
      have h0 : (0:ℚ) ≤ (⌊-q⌋ : ℚ) := by
        exact_mod_cast Int.floor_nonneg.mpr (by linarith : (0:ℚ) ≤ -q)
      rw [show ((-⌊-q⌋ : ℤ) : ℚ) = -(⌊-q⌋ : ℚ) by push_cast; ring, abs_neg,
        abs_of_nonneg h0]
      exact ⟨Int.floor_le (-q), Int.lt_floor_add_one (-q)⟩
  refine ⟨fun ha hb => ?_, habs.1, habs.2, fun h => ?_, fun h => ?_, ?_, ?_⟩
  · show max k.lo (min k.hi (ratTrunc q)) = ratTrunc q
    omega
  · unfold ratTrunc
    rw [if_pos h]
    exact Int.floor_nonneg.mpr h
  · unfold ratTrunc
    by_cases h0 : 0 ≤ q
    · have hq0 : q = 0 := le_antisymm h h0
      simp [hq0]
    · have : 0 ≤ ⌊-q⌋ := Int.floor_nonneg.mpr (by linarith [lt_of_not_ge h0])
      rw [if_neg h0]
      omega
  · obtain ⟨x⟩ := s
    rcases x with _ | b | q0
    · show k.lo ≤ 0
      omega
    · cases b
      · show k.lo ≤ k.lo
        omega
      · show k.lo ≤ k.hi
        omega
    · show k.lo ≤ max k.lo (min k.hi (ratTrunc q0))
      omega
  · obtain ⟨x⟩ := s
    rcases x with _ | b | q0
    · show (0:ℤ) ≤ k.hi
      omega
    · cases b
      · show k.lo ≤ k.hi
        omega
      · show k.hi ≤ k.hi
        omega
    · show max k.lo (min k.hi (ratTrunc q0)) ≤ k.hi
      omega

/-- Witness for C7: truncation of the scalar 3 through u8, and the sign
conditions at 3 and −3. -/
theorem c7_into_truncates_witness :
    Step.intoInt IntKind.u8 ⟨F32.val ((3:ℤ) : ℚ)⟩ = ratTrunc ((3:ℤ) : ℚ)
    ∧ 0 ≤ ratTrunc ((3:ℤ) : ℚ)
    ∧ ratTrunc ((-3:ℤ) : ℚ) ≤ 0 :=
  ⟨(c7_into_truncates IntKind.u8 ((3:ℤ) : ℚ) ⟨F32.nan⟩).1 (by decide) (by decide),
   (c7_into_truncates IntKind.u8 ((3:ℤ) : ℚ) ⟨F32.nan⟩).2.2.2.1 (by decide),
   (c7_into_truncates IntKind.u8 ((-3:ℤ) : ℚ) ⟨F32.nan⟩).2.2.2.2.1 (by decide)⟩

/-- C9: the out-of-range behaviour of the Step-to-integer conversion is
saturation: a finite scalar above the kind's maximum converts to the
maximum, one below the kind's minimum converts to the minimum, and a NaN
scalar converts to 0, for every supported integer kind. -/
theorem c9_saturates (k : IntKind) (q : ℚ) :
    ((k.hi : ℚ) < q → Step.intoInt k ⟨F32.val q⟩ = k.hi)
    ∧ (q < (k.lo : ℚ) → Step.intoInt k ⟨F32.val q⟩ = k.lo)
    ∧ Step.intoInt k ⟨F32.nan⟩ = 0 := by
  have hlo := k.lo_nonpos
  have hhi := k.hi_nonneg
  refine ⟨fun h => ?_, fun h => ?_, rfl⟩
  · have h0 : (0:ℚ) ≤ q := le_trans (by exact_mod_cast hhi) (le_of_lt h)
    have hfl : k.hi ≤ ⌊q⌋ := Int.le_floor.mpr (le_of_lt h)
    show max k.lo (min k.hi (ratTrunc q)) = k.hi
    unfold ratTrunc
    rw [if_pos h0]
    omega
  · have hq : ¬ (0:ℚ) ≤ q := by
      have : q < 0 := lt_of_lt_of_le h (by exact_mod_cast hlo)
      linarith
    have hfl : -k.lo ≤ ⌊-q⌋ := by
      apply Int.le_floor.mpr
      push_cast
      linarith
    show max k.lo (min k.hi (ratTrunc q)) = k.lo
    unfold ratTrunc
    rw [if_neg hq]
    omega

/-- Witness for C9: through u8, the scalar 300 saturates to 255, the scalar
−5 saturates to 0, and NaN converts to 0. -/
theorem c9_saturates_witness :
    Step.intoInt IntKind.u8 ⟨F32.val ((300:ℤ) : ℚ)⟩ = IntKind.hi IntKind.u8
    ∧ Step.intoInt IntKind.u8 ⟨F32.val ((-5:ℤ) : ℚ)⟩ = IntKind.lo IntKind.u8
    ∧ Step.intoInt IntKind.u8 ⟨F32.nan⟩ = 0 :=
  ⟨(c9_saturates IntKind.u8 ((300:ℤ) : ℚ)).1 (by decide),
   (c9_saturates IntKind.u8 ((-5:ℤ) : ℚ)).2.1 (by decide),
   (c9_saturates IntKind.u8 0).2.2⟩

/-- C2: `Ord::cmp` on Step (modelled with `none` as the `unwrap` panic)
fails exactly when at least one operand wraps a NaN scalar; for any two
Step values with non-NaN scalars the unwrap never fails and the result is
the total ordering of the underlying floats. -/
theorem c2_cmp_nan_panics (a b : Step) :
    (Step.cmp a b = none ↔ (a.step.isNaN = true ∨ b.step.isNaN = true))
    ∧ (a.step.isNaN = false → b.step.isNaN = false →
        Step.cmp a b = some (F32.cmpFin a.step b.step)) := by
  obtain ⟨x⟩ := a
  obtain ⟨y⟩ := b
  rcases x with _ | bx | qx <;> rcases y with _ | bb | qy <;>
    first
      | (try cases bx) <;> (try cases bb) <;>
          simp [Step.cmp, Step.partialCmp, Step.step, F32.partialCmp, F32.isNaN,
            F32.cmpFin]

/-- Witness for C2: comparing Step(1.0) with Step(2.0) does not panic and
returns the float ordering of the two scalars. -/
theorem c2_cmp_nan_panics_witness :
    Step.cmp ⟨F32.val 1⟩ ⟨F32.val 2⟩ =
      some (F32.cmpFin (F32.val 1) (F32.val 2)) :=
  (c2_cmp_nan_panics ⟨F32.val 1⟩ ⟨F32.val 2⟩).2 rfl rfl

/-- C3: for Step values with non-NaN scalars, exactly one of `a < b`,
`a == b`, `a > b` holds (the comparison and equality defined on the raw
scalar are trichotomous). -/
theorem c3_trichotomy (a b : Step)
    (ha : a.step.isNaN = false) (hb : b.step.isNaN = false) :
    (Step.ltb a b = true ∨ Step.eqb a b = true ∨ Step.gtb a b = true)
    ∧ (Step.ltb a b = true → Step.eqb a b = false ∧ Step.gtb a b = false)
    ∧ (Step.eqb a b = true → Step.ltb a b = false ∧ Step.gtb a b = false)
    ∧ (Step.gtb a b = true → Step.ltb a b = false ∧ Step.eqb a b = false) := by
  obtain ⟨x⟩ := a
  obtain ⟨y⟩ := b
  rcases x with _ | bx | qx <;> rcases y with _ | bb | qy
  · simp [Step.step, F32.isNaN] at ha
  · simp [Step.step, F32.isNaN] at ha
  · simp [Step.step, F32.isNaN] at ha
  · simp [Step.step, F32.isNaN] at hb
  · cases bx <;> cases bb <;>
      simp [Step.ltb, Step.eqb, Step.gtb, Step.partialCmp, Step.step,
        F32.partialCmp, F32.feq]
  · cases bx <;>
      simp [Step.ltb, Step.eqb, Step.gtb, Step.partialCmp, Step.step,
        F32.partialCmp, F32.feq]
  · simp [Step.step, F32.isNaN] at hb
  · cases bb <;>
      simp [Step.ltb, Step.eqb, Step.gtb, Step.partialCmp, Step.step,
        F32.partialCmp, F32.feq]
  · rcases lt_trichotomy qx qy with h | h | h
    · simp [Step.ltb, Step.eqb, Step.gtb, Step.partialCmp, Step.step,
        F32.partialCmp, F32.feq, qcmp, h, h.ne, h.not_lt]
    · simp [Step.ltb, Step.eqb, Step.gtb, Step.partialCmp, Step.step,
        F32.partialCmp, F32.feq, qcmp, h]
    · simp [Step.ltb, Step.eqb, Step.gtb, Step.partialCmp, Step.step,
        F32.partialCmp, F32.feq, qcmp, h, h.ne', h.not_lt]

/-- Witness for C3: trichotomy at Step(1.0) and Step(2.0). -/
theorem c3_trichotomy_witness :
    (Step.ltb ⟨F32.val 1⟩ ⟨F32.val 2⟩ = true
      ∨ Step.eqb ⟨F32.val 1⟩ ⟨F32.val 2⟩ = true
      ∨ Step.gtb ⟨F32.val 1⟩ ⟨F32.val 2⟩ = true)
    ∧ (Step.ltb ⟨F32.val 1⟩ ⟨F32.val 2⟩ = true →
        Step.eqb ⟨F32.val 1⟩ ⟨F32.val 2⟩ = false
        ∧ Step.gtb ⟨F32.val 1⟩ ⟨F32.val 2⟩ = false)
    ∧ (Step.eqb ⟨F32.val 1⟩ ⟨F32.val 2⟩ = true →
        Step.ltb ⟨F32.val 1⟩ ⟨F32.val 2⟩ = false
        ∧ Step.gtb ⟨F32.val 1⟩ ⟨F32.val 2⟩ = false)
    ∧ (Step.gtb ⟨F32.val 1⟩ ⟨F32.val 2⟩ = true →
        Step.ltb ⟨F32.val 1⟩ ⟨F32.val 2⟩ = false
        ∧ Step.eqb ⟨F32.val 1⟩ ⟨F32.val 2⟩ = false) :=
  c3_trichotomy ⟨F32.val 1⟩ ⟨F32.val 2⟩ rfl rfl

/-- C4: every arithmetic operator on Step acts componentwise on the raw
scalar and returns a new Step, and the spec's concrete examples hold:
Step(3)+Step(4) == Step(7), Step(5)-Step(2) == Step(3),
Step(2)*Step(3) == Step(6), and -Step(2) == Step(-2), where `==` is the
`PartialEq` defined on the raw scalars. -/
theorem c4_ops_componentwise (a b : Step) :
    a + b = ⟨a.step + b.step⟩
    ∧ a - b = ⟨a.step - b.step⟩
    ∧ a * b = ⟨a.step * b.step⟩
    ∧ a / b = ⟨a.step / b.step⟩
    ∧ a % b = ⟨a.step % b.step⟩
    ∧ -a = ⟨-a.step⟩
    ∧ Step.eqb (⟨F32.val 3⟩ + ⟨F32.val 4⟩) ⟨F32.val 7⟩ = true
    ∧ Step.eqb (⟨F32.val 5⟩ - ⟨F32.val 2⟩) ⟨F32.val 3⟩ = true
    ∧ Step.eqb (⟨F32.val 2⟩ * ⟨F32.val 3⟩) ⟨F32.val 6⟩ = true
    ∧ Step.eqb (-(⟨F32.val 2⟩ : Step)) ⟨F32.val (-2)⟩ = true := by
  refine ⟨rfl, rfl, rfl, rfl, rfl, rfl, ?_, ?_, ?_, ?_⟩
  · show decide ((3:ℚ) + 4 = 7) = true
    simp only [decide_eq_true_eq]
    norm_num
  · show decide ((5:ℚ) - 2 = 3) = true
    simp only [decide_eq_true_eq]
    norm_num
  · show decide ((2:ℚ) * 3 = 6) = true
    simp only [decide_eq_true_eq]
    norm_num
  · show decide (-(2:ℚ) = -2) = true
    simp only [decide_eq_true_eq]

/-- C5: for every Step and every choice of the external scaled-percentage
function and default weight, `scaled_perc()` returns exactly
`scaled_perc_with_weight(DEFAULT_SCALE_WEIGHT)`. -/
theorem c5_scaled_perc_default (E : Externals) (s : Step) :
    Step.scaled_perc E s = Step.scaled_perc_with_weight E s E.DEFAULT_SCALE_WEIGHT :=
  rfl

/-- C6: the weight stored in the ScaledPerc built by `to_scaled_perc()` is
the default scale weight, and `to_scaled_perc_with_weight(w)` stores
exactly the weight w it was constructed with. -/
theorem c6_weight_stored (E : Externals) (s : Step) (w : F32) :
    (Step.to_scaled_perc E s).weight = E.DEFAULT_SCALE_WEIGHT
    ∧ (Step.to_scaled_perc_with_weight E s w).weight = w :=
  ⟨rfl, rfl⟩

/-- Strict order on scalars: `partial_cmp` returns `Less`. -/
def F32.fltP (a b : F32) : Prop := F32.partialCmp a b = some Ordering.lt

/-- Non-strict order on scalars: `partial_cmp` returns `Less` or `Equal`. -/
def F32.fleP (a b : F32) : Prop :=
  F32.partialCmp a b = some Ordering.lt ∨ F32.partialCmp a b = some Ordering.eq

/-- C8: under the interface contract that the external `hz_from_step`,
`mel_from_step` and `perc_from_step` are monotonically increasing, the
Step conversion methods are monotonic: s1 < s2 implies
s1.hz() < s2.hz(), s1.mel() <= s2.mel() and s1.perc() <= s2.perc(). -/
theorem c8_conversions_monotone (E : Externals)
    (hhz : ∀ x y : F32, F32.fltP x y → F32.fltP (E.hz_from_step x) (E.hz_from_step y))
    (hmel : ∀ x y : F32, F32.fltP x y → F32.fltP (E.mel_from_step x) (E.mel_from_step y))
    (hperc : ∀ x y : F32, F32.fltP x y → F32.fltP (E.perc_from_step x) (E.perc_from_step y))
    (s1 s2 : Step) (h : Step.ltb s1 s2 = true) :
    F32.fltP (Step.hz E s1) (Step.hz E s2)
    ∧ F32.fleP (Step.mel E s1) (Step.mel E s2)
    ∧ F32.fleP (Step.perc E s1) (Step.perc E s2) := by
  have h12 : F32.fltP s1.step s2.step := by
    have := of_decide_eq_true h
    exact this
  exact ⟨hhz _ _ h12, Or.inl (hmel _ _ h12), Or.inl (hperc _ _ h12)⟩

/-- Witness for C8: with identity external maps, Step(0) < Step(1) gives
strictly increasing hz and non-decreasing mel and perc. -/
theorem c8_conversions_monotone_witness :
    F32.fltP (Step.hz E0 ⟨F32.val 0⟩) (Step.hz E0 ⟨F32.val 1⟩)
    ∧ F32.fleP (Step.mel E0 ⟨F32.val 0⟩) (Step.mel E0 ⟨F32.val 1⟩)
    ∧ F32.fleP (Step.perc E0 ⟨F32.val 0⟩) (Step.perc E0 ⟨F32.val 1⟩) :=
  c8_conversions_monotone E0 (fun _ _ h => h) (fun _ _ h => h) (fun _ _ h => h)
    ⟨F32.val 0⟩ ⟨F32.val 1⟩ (by decide)

/-- C10: each wrapped-type conversion agrees with its scalar counterpart:
to_hz == Hz(hz()), to_mel == Mel(mel()), to_perc == Perc(perc()), and
to_letter_octave == LetterOctave(letter(), octave()), where letter() and
octave() are the components of the single letter_octave() result — for
every Step and every choice of externals. -/
theorem c10_wrapped_agrees_scalar (E : Externals) (s : Step) :
    Step.to_hz E s = ⟨Step.hz E s⟩
    ∧ Step.to_mel E s = ⟨Step.mel E s⟩
    ∧ Step.to_perc E s = ⟨Step.perc E s⟩
    ∧ Step.to_letter_octave E s = ⟨Step.letter E s, Step.octave E s⟩
    ∧ (Step.letter E s, Step.octave E s) = Step.letter_octave E s :=
  ⟨rfl, rfl, rfl, rfl, rfl⟩
